import Mathlib

/-!
Verification development for the Heimdall log-collection pipeline.

This file gives a shallow embedding, in Lean 4, of the parts of the
repository that the specification's testable properties talk about:

* the Linux agent's stateful log reading and cursor persistence
  (`src/agents/agent_linux.py`: `read_new_lines`, `collect_events`, `run`),
* the agent's line classifier (`LinuxAgent.parse_event`, `parse_timestamp`),
* the ingestion path (`src/core/server_api.py`: `ingest_logs`;
  `src/core/database_pg.py`: `insert_events_batch`, `record_heartbeat`),
* host liveness classification (`database_pg.get_host_status`),
* the alert engine (`src/core/alert_manager.py`: `is_quiet_hour`,
  `check_critical_events`, `check_inactive_hosts`;
  `database_pg.check_alert_sent`, `record_alert_sent`).

Modelling conventions:
* Byte offsets are modelled as character counts (`String.data.length`);
  the Python code only compares and stores sizes, never decodes offsets.
* Timestamps handled as opaque ISO strings where the code does, and as
  integers (minutes since an arbitrary epoch) where the code does clock
  arithmetic (`get_host_status`).
* External library calls (the `re` regex engine, `hashlib.md5`,
  `datetime` formatting) are modelled as explicit function parameters:
  the claims under study depend only on these being functions, not on
  their internals.  Concrete instances supplied for witnesses are chosen
  to agree with the source's regexes on the specific lines evaluated.
* Database tables are association lists; the PostgreSQL behaviour that
  matters to the claims (uniqueness of `event_id`, upsert on conflict,
  and psycopg2's transaction semantics where a failed statement aborts
  the enclosing transaction) is modelled explicitly.
-/

namespace Heimdall

/-- Structural character-list strip, modelling Python `str.strip()`
(whitespace on both ends removed).  Defined over `String.data` so that
the kernel can evaluate it on concrete inputs. -/
def isSpaceChar (c : Char) : Bool :=
  c = ' ' || c = '\t' || c = '\n' || c = '\r'

/-- Python `line.strip()`. -/
def pyStrip (s : String) : String :=
  String.mk ((((s.data.dropWhile isSpaceChar).reverse).dropWhile isSpaceChar).reverse)

/-- Python `str.lower()`, structural over the character list. -/
def pyLower (s : String) : String :=
  String.mk (s.data.map Char.toLower)

/-- Python `len(s)` (characters; see the byte-as-character convention). -/
def sLen (s : String) : Nat :=
  s.data.length

/-- Python `s[:n]`. -/
def pyTake (n : Nat) (s : String) : String :=
  String.mk (s.data.take n)

/-- Python `s[n:]` (used for `f.seek(pos); f.read…`). -/
def pyDrop (n : Nat) (s : String) : String :=
  String.mk (s.data.drop n)

/-- Python `pat in s` (substring containment). -/
def containsSub (hay pat : String) : Bool :=
  decide (pat.data <:+: hay.data)

/-! ## Data model (`src/core/models.py`, table `logs`)

`LogEvent` mirrors the unified event schema: `event_id`, `timestamp`,
`source_host`, `os_type`, `event_type`, `severity`, `source_ip`, `user`,
`raw_message`. -/

structure LogEvent where
  event_id : String
  timestamp : String
  source_host : String
  os_type : String
  event_type : String
  severity : Nat
  source_ip : String
  user : String
  raw_message : String
deriving Repr, DecidableEq

/-! ## Agent offset tracking (`agent_linux.py`, lines 137-198)

`file_states` is a JSON dict from file path to byte offset, persisted by
`_save_state` (which `read_new_lines` calls immediately after reading).
The dict is modelled as an association list with first-match lookup. -/

/-- The persisted per-source cursor mapping (`self.file_states`). -/
abbrev FileStates := List (String × Nat)

/-- Lookup `self.file_states.get(file_path, 0)`. -/
def statesGet (st : FileStates) (p : String) : Nat :=
  match st with
  | [] => 0
  | (q, v) :: rest => if q = p then v else statesGet rest p

/-- Update `self.file_states[file_path] = v` (dict update). -/
def statesSet (st : FileStates) (p : String) (v : Nat) : FileStates :=
  match st with
  | [] => [(p, v)]
  | (q, w) :: rest => if q = p then (p, v) :: rest else (q, w) :: statesSet rest p v

/-- The file system visible to the agent: path to current full content.
A missing path models `os.path.exists(file_path)` returning `False`. -/
abbrev FileSys := List (String × String)

/-- Content of `p`, or `none` when the file is absent. -/
def fsGet (fs : FileSys) (p : String) : Option String :=
  match fs with
  | [] => none
  | (q, c) :: rest => if q = p then some c else fsGet rest p

/--
`LinuxAgent.read_new_lines` (agent_linux.py lines 173-198).

* missing file: return no lines, `file_states` untouched;
* `current_size < last_pos` (rotation): read from position 0;
* otherwise read from the stored offset;
* afterwards `file_states[path] = f.tell()` (the end of file) and
  `_save_state()` persists the mapping — note this happens here, at read
  time, not after delivery.

`readlines()` splits the returned chunk at newlines; the split is
irrelevant to the offset logic, so the raw chunk is returned.
-/
def read_new_lines (fs : FileSys) (st : FileStates) (path : String) :
    String × FileStates :=
  match fsGet fs path with
  | none => ("", st)
  | some content =>
      let currentSize := sLen content
      let lastPos := statesGet st path
      let readPos := if currentSize < lastPos then 0 else lastPos
      (pyDrop readPos content, statesSet st path currentSize)

/-- The offset-tracking effect of `collect_events` (agent_linux.py lines
418-448): it calls `read_new_lines` on every configured log file in
order.  Classification and the in-memory dedup cache do not touch
`file_states`, so only the state thread is kept here. -/
def read_all_sources (fs : FileSys) (logFiles : List String) (st : FileStates) :
    FileStates :=
  logFiles.foldl (fun s p => (read_new_lines fs s p).2) st

/--
One iteration of `LinuxAgent.run` (agent_linux.py lines 614-627), as it
affects the persisted cursor state: `collect_events` reads all sources
(persisting offsets inside `read_new_lines`), then `send_events` posts
the batch.  `deliveryOk` is the outcome of `send_events` (agent_linux.py
lines 450-485); its value is never consulted for the cursor state.
-/
def agent_cycle (fs : FileSys) (logFiles : List String) (st : FileStates)
    (_deliveryOk : Bool) : FileStates :=
  read_all_sources fs logFiles st

/-! ## Line classifier (`agent_linux.py`, lines 200-416)

The compiled regexes in `self.patterns` live in the external `re`
library; each is modelled as a match oracle: a pure function from the
line to its captured groups (or a match flag where the code only tests
for a match).  `parse_event`'s control flow — the guard on line length,
the detector order, the field values of every branch, the `sudo` and
mail substring pre-checks, the sudo command filter — is translated
directly.  Python's early `return`s become an `Option.orElse` chain. -/

structure Patterns where
  /-- groups `(user, ip)` of the `failed_password` regex. -/
  failed_password : String → Option (String × String)
  /-- groups `(user, ip)` of `failed_password_invalid`. -/
  failed_password_invalid : String → Option (String × String)
  /-- groups `(user, command)` of `sudo_command`. -/
  sudo_command : String → Option (String × String)
  /-- group `ip` of `web_error_forbidden`. -/
  web_error_forbidden : String → Option String
  /-- group `ip` of `web_attack`. -/
  web_attack : String → Option String
  /-- group `ip` of `postfix_auth_fail`. -/
  postfix_auth_fail : String → Option String
  /-- group `ip` of `dovecot_auth_fail`. -/
  dovecot_auth_fail : String → Option String
  oom_kill : String → Bool
  kernel_warning : String → Bool
  systemd_failure : String → Bool
  docker_error : String → Bool
  generic_error : String → Bool
  /-- Result of `re.match(r"(\w{3}\s+\d{1,2}\s+\d{2}:\d{2}:\d{2})", line)` in
  `parse_timestamp`: the matched date text, or `none` (also covering a
  subsequent `strptime` failure, which falls into the same handler). -/
  date_match : String → Option String

/-- The ambient wall-clock/timezone state read by `parse_timestamp` and
`parse_event` through `datetime` / `dateutil.tz`.  These are process
state, not function inputs, in the source; making them explicit exposes
exactly which outputs depend on them. -/
structure TimeCtx where
  /-- Value of `datetime.now(timezone.utc).isoformat()` (fallback timestamp). -/
  nowUtcIso : String
  /-- Value of `datetime.now().year` (logs carry no year). -/
  currentYear : Nat
  /-- rendering of `strptime(f"{year} {date_str}")` localised with
  `tz.tzlocal()` and emitted by `isoformat()` — a pure function of the
  year and matched date text once the local timezone is fixed. -/
  renderLocal : Nat → String → String
  /-- Value of `datetime.now(tz.tzlocal()).tzname()` (prepended to messages). -/
  tzName : String

/-- Model of `LinuxAgent.parse_timestamp` (agent_linux.py lines 200-226). -/
def parse_timestamp (pats : Patterns) (ctx : TimeCtx) (line : String) : String :=
  match pats.date_match line with
  | some dateStr => ctx.renderLocal ctx.currentYear dateStr
  | none => ctx.nowUtcIso

/-- The time-independent payload of a classified event: everything
`parse_event` fills in other than `timestamp` (and the tz-tagged
message, which is recoverable from `tzName` and the line). -/
structure EventCore where
  event_id : String
  event_type : String
  severity : Nat
  source_ip : String
  user : String
deriving Repr, DecidableEq

/-- The time-independent part of `parse_event`: which detector fires
and every field except `timestamp`/`raw_message`.  Branches appear in
source order (agent_linux.py lines 228-416); `md5hex` models
`hashlib.md5(...).hexdigest()`. -/
def classify_core (pats : Patterns) (md5hex : String → String)
    (host : String) (line : String) : Option EventCore :=
  if sLen (pyStrip line) < 10 then none
  else
    let lineHash := md5hex (pyStrip line)
    let mk : String → String → Nat → String → String → EventCore :=
      fun eid ety sev ip usr =>
        { event_id := eid, event_type := ety, severity := sev,
          source_ip := ip, user := usr }
    ((pats.failed_password line).map (fun g =>
        mk (host ++ "-failed-pwd-" ++ lineHash) "LOGIN_FAIL" 3 g.2 g.1)) <|>
    ((pats.failed_password_invalid line).map (fun g =>
        mk (host ++ "-invalid-user-" ++ lineHash) "LOGIN_FAIL" 3 g.2 g.1)) <|>
    (if containsSub (pyLower line) "sudo" then
      match pats.sudo_command line with
      | some g =>
          if containsSub g.2 "/" || !((pyTake 5 g.2).data.contains '=') then
            some (mk (host ++ "-sudo-" ++ lineHash) "SUDO_ESCALATION" 2 "N/A" g.1)
          else none
      | none => none
     else none) <|>
    ((pats.web_error_forbidden line).map (fun ip =>
        mk (host ++ "-web-403-" ++ lineHash) "CONNECTION_BLOCKED" 2 ip "www-data")) <|>
    ((pats.web_attack line).map (fun ip =>
        mk (host ++ "-web-attack-" ++ lineHash) "WEB_ATTACK" 4 ip "unknown")) <|>
    (if containsSub (pyLower line) "postfix" || containsSub (pyLower line) "dovecot" then
      ((pats.postfix_auth_fail line).orElse (fun _ => pats.dovecot_auth_fail line)).map
        (fun ip => mk (host ++ "-mail-fail-" ++ lineHash) "LOGIN_FAIL" 3 ip "mail-user")
     else none) <|>
    (if pats.oom_kill line then
        some (mk (host ++ "-oom-" ++ lineHash) "CRITICAL_ERROR" 5 "N/A" "system")
     else none) <|>
    (if pats.kernel_warning line then
        some (mk (host ++ "-kernel-warn-" ++ lineHash) "SYSTEM_ALERT" 4 "N/A" "kernel")
     else none) <|>
    (if pats.systemd_failure line then
        some (mk (host ++ "-systemd-fail-" ++ lineHash) "SYSTEM_ALERT" 4 "N/A" "systemd")
     else none) <|>
    (if pats.docker_error line then
        some (mk (host ++ "-docker-err-" ++ lineHash) "SYSTEM_ALERT" 4 "N/A" "docker")
     else none) <|>
    (if pats.generic_error line then
        some (mk (host ++ "-generic-err-" ++ lineHash) "SYSTEM_ALERT" 3 "N/A" "system")
     else none)

/-- Completion of an `EventCore` into the event dict `parse_event`
returns: the timestamp comes from `parse_timestamp` and the raw message
is the line prefixed with the local timezone name (agent_linux.py lines
242-248). -/
def fillEvent (pats : Patterns) (host osty : String) (ctx : TimeCtx)
    (line : String) (c : EventCore) : LogEvent :=
  { event_id := c.event_id,
    timestamp := parse_timestamp pats ctx line,
    source_host := host,
    os_type := osty,
    event_type := c.event_type,
    severity := c.severity,
    source_ip := c.source_ip,
    user := c.user,
    raw_message := "[" ++ ctx.tzName ++ "] " ++ pyStrip line }

/--
`LinuxAgent.parse_event` (agent_linux.py lines 228-416).

Returns `none` for lines shorter than 10 characters after stripping and
for lines no detector matches.  Branches in source order:
failed_password, failed_password_invalid, sudo (guarded by a `"sudo"`
substring test and the command filter), web_error_forbidden,
web_attack, postfix/dovecot (guarded by a substring test), oom_kill,
kernel_warning, systemd_failure, docker_error, generic_error.
-/
def parse_event (pats : Patterns) (md5hex : String → String)
    (host osty : String) (ctx : TimeCtx) (line : String) : Option LogEvent :=
  if sLen (pyStrip line) < 10 then none
  else
    let lineHash := md5hex (pyStrip line)
    let mk : String → String → Nat → String → String → LogEvent :=
      fun eid ety sev ip usr =>
        { event_id := eid,
          timestamp := parse_timestamp pats ctx line,
          source_host := host, os_type := osty,
          event_type := ety, severity := sev, source_ip := ip, user := usr,
          raw_message := "[" ++ ctx.tzName ++ "] " ++ pyStrip line }
    ((pats.failed_password line).map (fun g =>
        mk (host ++ "-failed-pwd-" ++ lineHash) "LOGIN_FAIL" 3 g.2 g.1)) <|>
    ((pats.failed_password_invalid line).map (fun g =>
        mk (host ++ "-invalid-user-" ++ lineHash) "LOGIN_FAIL" 3 g.2 g.1)) <|>
    (if containsSub (pyLower line) "sudo" then
      match pats.sudo_command line with
      | some g =>
          if containsSub g.2 "/" || !((pyTake 5 g.2).data.contains '=') then
            some (mk (host ++ "-sudo-" ++ lineHash) "SUDO_ESCALATION" 2 "N/A" g.1)
          else none
      | none => none
     else none) <|>
    ((pats.web_error_forbidden line).map (fun ip =>
        mk (host ++ "-web-403-" ++ lineHash) "CONNECTION_BLOCKED" 2 ip "www-data")) <|>
    ((pats.web_attack line).map (fun ip =>
        mk (host ++ "-web-attack-" ++ lineHash) "WEB_ATTACK" 4 ip "unknown")) <|>
    (if containsSub (pyLower line) "postfix" || containsSub (pyLower line) "dovecot" then
      ((pats.postfix_auth_fail line).orElse (fun _ => pats.dovecot_auth_fail line)).map
        (fun ip => mk (host ++ "-mail-fail-" ++ lineHash) "LOGIN_FAIL" 3 ip "mail-user")
     else none) <|>
    (if pats.oom_kill line then
        some (mk (host ++ "-oom-" ++ lineHash) "CRITICAL_ERROR" 5 "N/A" "system")
     else none) <|>
    (if pats.kernel_warning line then
        some (mk (host ++ "-kernel-warn-" ++ lineHash) "SYSTEM_ALERT" 4 "N/A" "kernel")
     else none) <|>
    (if pats.systemd_failure line then
        some (mk (host ++ "-systemd-fail-" ++ lineHash) "SYSTEM_ALERT" 4 "N/A" "systemd")
     else none) <|>
    (if pats.docker_error line then
        some (mk (host ++ "-docker-err-" ++ lineHash) "SYSTEM_ALERT" 4 "N/A" "docker")
     else none) <|>
    (if pats.generic_error line then
        some (mk (host ++ "-generic-err-" ++ lineHash) "SYSTEM_ALERT" 3 "N/A" "system")
     else none)

/-- Forget the `timestamp` field of an event (used to state which part
of the classifier's output is independent of the wall clock). -/
def stripTime (e : LogEvent) : LogEvent :=
  { e with timestamp := "" }

/-! ## Ingestion path (`database_pg.py` lines 201-241, `server_api.py`
lines 89-132)

`insert_events_batch` issues one `INSERT` per event on a single pooled
psycopg2 connection with default (non-autocommit) transaction
semantics.  Those semantics are part of the behaviour and are modelled
explicitly: all inserts of a batch belong to one transaction; a
statement that raises (here: the unique-constraint violation on
`event_id`, caught as `psycopg2.IntegrityError`) puts the transaction
into the aborted state; every later statement on that connection raises
`InFailedSqlTransaction` (caught by the loop's generic handler); and
the final `conn.commit()` on an aborted transaction rolls it back, so
none of the batch's rows survive. -/

/-- In-flight state of the batch-insert loop: rows inserted so far in
the open transaction, the transaction-aborted flag, and the two
counters of the source. -/
structure BatchState where
  pending : List LogEvent
  aborted : Bool
  inserted : Nat
  failed : Nat
deriving Repr, DecidableEq

/-- One iteration of the `for event_dict in events` loop of
`insert_events_batch` (database_pg.py lines 210-232). -/
def insertStep (storedIds : List String) (st : BatchState) (e : LogEvent) :
    BatchState :=
  if st.aborted then
    -- cursor.execute raises InFailedSqlTransaction -> generic handler
    { st with failed := st.failed + 1 }
  else if e.event_id ∈ storedIds ∨ e.event_id ∈ st.pending.map (fun r => r.event_id) then
    -- unique violation on event_id -> IntegrityError, txn now aborted
    { st with aborted := true, failed := st.failed + 1 }
  else
    { st with pending := st.pending ++ [e], inserted := st.inserted + 1 }

/-- Model of `insert_events_batch(events)` (database_pg.py lines 201-241):
returns the `(inserted, failed)` counts reported by the code together
with the `logs` table as it stands after `conn.commit()`. -/
def insert_events_batch (store : List LogEvent) (events : List LogEvent) :
    (Nat × Nat) × List LogEvent :=
  let st := events.foldl (insertStep (store.map (fun r => r.event_id)))
    { pending := [], aborted := false, inserted := 0, failed := 0 }
  ((st.inserted, st.failed), if st.aborted then store else store ++ st.pending)

/-- One row of the `heartbeats` table (`source_host` is UNIQUE). -/
structure HostRow where
  hostname : String
  os_type : String
  last_seen : Int
deriving Repr, DecidableEq

/-- The `heartbeats` table. -/
abbrev HeartbeatTable := List HostRow

/-- Model of `record_heartbeat(source_host, os_type)` (database_pg.py lines
450-474): upsert on `source_host`; on conflict only `last_seen` (and
`updated_at`) are refreshed — `os_type` keeps its stored value.
`now` stands for the Python-generated UTC timestamp. -/
def record_heartbeat (now : Int) (t : HeartbeatTable) (host osty : String) :
    HeartbeatTable :=
  match t with
  | [] => [{ hostname := host, os_type := osty, last_seen := now }]
  | r :: rest =>
      if r.hostname = host then { r with last_seen := now } :: rest
      else r :: record_heartbeat now rest host osty

/-- The `last_seen` of a host in the heartbeat table, if present. -/
def hbLastSeen (t : HeartbeatTable) (host : String) : Option Int :=
  match t with
  | [] => none
  | r :: rest => if r.hostname = host then some r.last_seen else hbLastSeen rest host

/-- The set `{(e.source_host, e.os_type) for e in request.events}`
(server_api.py line 111).  A Python set iterates in unspecified order;
deduplication order is irrelevant to the claims proved below. -/
def uniqueHostPairs (events : List LogEvent) : List (String × String) :=
  (events.map (fun e => (e.source_host, e.os_type))).dedup

/-- Response model of `/ingest` (`models.py` lines 71-75). -/
structure IngestResponse where
  success : Bool
  message : String
  events_processed : Nat
deriving Repr, DecidableEq

/-- Response message built at server_api.py line 120. -/
def ingestMessage (processed failed : Nat) : String :=
  "Processed " ++ toString processed ++ " events" ++
    (if 0 < failed then ", " ++ toString failed ++ " duplicates skipped" else "")

/-- Model of `ingest_logs` (server_api.py lines 89-132), after API-key
validation and schema validation have succeeded: batch-insert the
events, then — only when the reported `processed` count is positive —
upsert a heartbeat for every distinct `(source_host, os_type)` pair of
the request.  Returns the new `logs` table, the new `heartbeats` table
and the response body. -/
def ingest_logs (store : List LogEvent) (hb : HeartbeatTable) (now : Int)
    (events : List LogEvent) :
    List LogEvent × HeartbeatTable × IngestResponse :=
  let res := insert_events_batch store events
  let processed := res.1.1
  let failed := res.1.2
  let hb2 :=
    if 0 < processed then
      (uniqueHostPairs events).foldl (fun t pr => record_heartbeat now t pr.1 pr.2) hb
    else hb
  (res.2, hb2, { success := true, message := ingestMessage processed failed,
                 events_processed := processed })

/-! ## Host liveness (`database_pg.get_host_status`, lines 476-568)

The SQL union produces one row per heartbeat plus, for hosts that never
sent a heartbeat, one row per `(source_host, os_type)` group of `logs`
with `MAX(timestamp)` as `last_seen`.  Timestamps are modelled as
minutes since an arbitrary epoch, since the Python code only compares
them against `utcnow() - timedelta(minutes=threshold)`.  The
`total_events` count and the `ORDER BY last_seen DESC` of the SQL, and
the parse-failure fallback branch, do not affect which list a row lands
in and are omitted. -/

/-- Maximum of a timestamp group (`MAX(l.timestamp)`); groups built
below are never empty. -/
def maxTs (l : List Int) : Int :=
  match l with
  | [] => 0
  | x :: xs => xs.foldl max x

/-- The rows of the SQL union: heartbeats, then log-only hosts grouped
by `(source_host, os_type)` with their maximum event timestamp.
`logs` rows are `(source_host, os_type, timestamp)` triples. -/
def combinedRows (hb : List HostRow) (logs : List (String × String × Int)) :
    List HostRow :=
  let hbHosts := hb.map (fun r => r.hostname)
  let orphan := logs.filter (fun l => !(hbHosts.contains l.1))
  let keys := (orphan.map (fun l => (l.1, l.2.1))).dedup
  hb ++ keys.map (fun k =>
    { hostname := k.1, os_type := k.2,
      last_seen := maxTs ((orphan.filter
        (fun l => l.1 = k.1 && l.2.1 = k.2)).map (fun l => l.2.2)) })

/-- Model of `get_host_status(inactive_threshold_minutes)` (database_pg.py lines
476-568): a row is active iff `last_seen >= utcnow() - timedelta
(minutes=threshold)`.  Returns `(active, inactive)`. -/
def get_host_status (hb : List HostRow) (logs : List (String × String × Int))
    (now thr : Int) : List HostRow × List HostRow :=
  let thresholdTime := now - thr
  (combinedRows hb logs).partition (fun r => decide (thresholdTime ≤ r.last_seen))

/-! ## Alert engine (`alert_manager.py`, `database_pg.py` lines 570-609)

`alert_history` is the persisted AlertRecord table: rows
`(event_id, alert_type)` with a UNIQUE constraint on the pair.  The
dispatch calls (`send_critical_event_alert`, `send_host_down_alert`)
are external collaborators modelled as success oracles; the list of
`(condition_id, alert_kind)` pairs for which a dispatch succeeded in a
cycle is returned as the cycle's observable output.  Config reads
(`get_alerts_enabled`, threshold, `is_quiet_hour`) are modelled as
fixed per cycle. -/

/-- The `alert_history` table (pairs `(event_id, alert_type)`). -/
abbrev AlertDB := List (String × String)

/-- Model of `check_alert_sent(event_id, alert_type)` (database_pg.py lines
570-588). -/
def check_alert_sent (db : AlertDB) (cid kind : String) : Bool :=
  decide ((cid, kind) ∈ db)

/-- Model of `record_alert_sent(event_id, alert_type)` (database_pg.py lines
590-609): `INSERT ... ON CONFLICT (event_id, alert_type) DO NOTHING`. -/
def record_alert_sent (db : AlertDB) (cid kind : String) : AlertDB :=
  if (cid, kind) ∈ db then db else db ++ [(cid, kind)]

/-- One iteration of the `for event in events` loop of
`check_critical_events` (alert_manager.py lines 89-107).  The
accumulator carries the `alert_history` table and the successful
dispatches of the cycle so far. -/
def critStep (thr : Nat) (quiet : Bool) (dispatchOk : LogEvent → Bool)
    (acc : AlertDB × List (String × String)) (e : LogEvent) :
    AlertDB × List (String × String) :=
  if thr ≤ e.severity then
    if e.event_id ≠ "" ∧ check_alert_sent acc.1 e.event_id "critical" = false then
      if quiet then acc
      else if dispatchOk e then
        (record_alert_sent acc.1 e.event_id "critical",
         acc.2 ++ [(e.event_id, "critical")])
      else acc
    else acc
  else acc

/-- Model of `AlertManager.check_critical_events` (alert_manager.py lines
79-110): `events` is the `get_all_events(limit=100)` result. -/
def check_critical_events (enabled : Bool) (thr : Nat) (quiet : Bool)
    (dispatchOk : LogEvent → Bool) (events : List LogEvent) (db : AlertDB) :
    AlertDB × List (String × String) :=
  if enabled then events.foldl (critStep thr quiet dispatchOk) (db, [])
  else (db, [])

/-- One iteration of the `for host in host_status.get("inactive", [])`
loop of `check_inactive_hosts` (alert_manager.py lines 121-136). -/
def hostStep (quiet : Bool) (dispatchOk : HostRow → Bool)
    (acc : AlertDB × List (String × String)) (h : HostRow) :
    AlertDB × List (String × String) :=
  if check_alert_sent acc.1 ("host-down-" ++ h.hostname) "host_down" = false then
    if quiet then acc
    else if dispatchOk h then
      (record_alert_sent acc.1 ("host-down-" ++ h.hostname) "host_down",
       acc.2 ++ [("host-down-" ++ h.hostname, "host_down")])
    else acc
  else acc

/-- Model of `AlertManager.check_inactive_hosts` (alert_manager.py lines
112-139): `inactive` is `get_host_status(...)["inactive"]`. -/
def check_inactive_hosts (enabled : Bool) (quiet : Bool)
    (dispatchOk : HostRow → Bool) (inactive : List HostRow) (db : AlertDB) :
    AlertDB × List (String × String) :=
  if enabled then inactive.foldl (hostStep quiet dispatchOk) (db, [])
  else (db, [])

/-- One Alert Engine polling cycle (alert_manager.py lines 147-153):
`check_critical_events()` then `check_inactive_hosts()`, threading the
persisted `alert_history` table and collecting all successful
dispatches. -/
def alert_cycle (enabled : Bool) (thr : Nat) (quiet : Bool)
    (dispatchOk : LogEvent → Bool) (hostOk : HostRow → Bool)
    (events : List LogEvent) (inactive : List HostRow) (db : AlertDB) :
    AlertDB × List (String × String) :=
  let c := check_critical_events enabled thr quiet dispatchOk events db
  let h := check_inactive_hosts enabled quiet hostOk inactive c.1
  (h.1, c.2 ++ h.2)

/-! ## Quiet hours (`AlertManager.is_quiet_hour`, alert_manager.py
lines 53-77)

The config string has the form `"HH:MM-HH:MM"`.  Python's
`str.split(sep)` and `int(...)`, which raise on malformed input (the
exception handler returns `False`), are modelled as a total parser
returning `Option`. -/

/-- Python `s.split(c)` for a single-character separator. -/
def splitChar (c : Char) (l : List Char) : List (List Char) :=
  match l with
  | [] => [[]]
  | x :: xs =>
      let r := splitChar c xs
      if x = c then [] :: r
      else
        match r with
        | [] => [[x]]
        | y :: ys => (x :: y) :: ys

/-- Python `int(s)` for the non-negative numerals appearing in a time
of day; `none` models the `ValueError` path. -/
def parseNat (s : String) : Option Nat :=
  match s.data with
  | [] => none
  | l =>
      if l.all Char.isDigit then
        some (l.foldl (fun a c => a * 10 + (c.toNat - 48)) 0)
      else none

/-- Parse of `h, m = map(int, part.split(":"))` — exactly two int fields. -/
def parseHM (s : String) : Option (Nat × Nat) :=
  match splitChar ':' s.data with
  | [h, m] =>
      match parseNat (String.mk h), parseNat (String.mk m) with
      | some hh, some mm => some (hh, mm)
      | _, _ => none
  | _ => none

/-- Parse of `start_str, end_str = quiet_hours.split("-")` plus the two
`parseHM`s, yielding `(start_minutes, end_minutes)` (alert_manager.py
lines 60-67). -/
def parseQuietRange (cfg : String) : Option (Nat × Nat) :=
  match splitChar '-' cfg.data with
  | [s, e] =>
      match parseHM (String.mk s), parseHM (String.mk e) with
      | some sm, some em => some (sm.1 * 60 + sm.2, em.1 * 60 + em.2)
      | _, _ => none
  | _ => none

/-- Model of `AlertManager.is_quiet_hour()` (alert_manager.py lines 53-77),
with the current time supplied as its minute of day
(`now.hour * 60 + now.minute`). -/
def is_quiet_hour (cfg : String) (currentMinutes : Nat) : Bool :=
  if cfg = "" || !(cfg.data.contains '-') then false
  else
    match parseQuietRange cfg with
    | none => false
    | some se =>
        if se.1 < se.2 then
          decide (se.1 ≤ currentMinutes ∧ currentMinutes < se.2)
        else
          decide (currentMinutes ≥ se.1 ∨ currentMinutes < se.2)

/-! ## Concrete instances used by witnesses and counterexamples

The Lean theorems below quantify over the regex/digest/clock oracles;
the concrete instances here are used only to evaluate the theorems on
explicit inputs.  Each oracle is chosen to agree with the source's
compiled regex on the specific lines that appear in those evaluations
(checked by hand against `agent_linux.py` lines 73-135). -/

/-- Keyword test agreeing with the `generic_error` regex
`(error|failed|denied|...)\b` on the witness lines below. -/
def genericErrorKeyword (line : String) : Bool :=
  ["error", "failed", "denied", "warning", "critical",
   "failure", "problem", "invalid"].any
    (fun kw => containsSub (pyLower line) kw)

/-- Oracle instance: on the witness lines, none of the specific
detectors matches (no `Failed password for … from … port …`, no
`Invalid user`, no client-IP web patterns, no syslog date prefix, …),
and `generic_error` fires through its keyword alternation. -/
def cPats : Patterns :=
  { failed_password := fun _ => none
    failed_password_invalid := fun _ => none
    sudo_command := fun _ => none
    web_error_forbidden := fun _ => none
    web_attack := fun _ => none
    postfix_auth_fail := fun _ => none
    dovecot_auth_fail := fun _ => none
    oom_kill := fun _ => false
    kernel_warning := fun _ => false
    systemd_failure := fun _ => false
    docker_error := fun _ => false
    generic_error := genericErrorKeyword
    date_match := fun _ => none }

/-- Digest stand-in used only to evaluate witnesses; every theorem
below holds for an arbitrary digest function. -/
def digestOracle : String → String := fun s => s

/-- A wall clock at one instant. -/
def ctxA : TimeCtx :=
  { nowUtcIso := "2026-10-12T00:00:00+00:00", currentYear := 2026,
    renderLocal := fun _ d => d, tzName := "UTC" }

/-- The same timezone five minutes later. -/
def ctxB : TimeCtx :=
  { nowUtcIso := "2026-10-12T00:05:00+00:00", currentYear := 2026,
    renderLocal := fun _ d => d, tzName := "UTC" }

/-- A log line classified by the `generic_error` detector. -/
def cLine : String := "error: disk write failure detected"

/-- A stored event (occupies id `dup-1` in the `logs` table). -/
def cEvStored : LogEvent :=
  { event_id := "dup-1", timestamp := "2026-10-11T10:00:00Z",
    source_host := "web-01", os_type := "LINUX", event_type := "LOGIN_FAIL",
    severity := 3, source_ip := "10.0.0.5", user := "root",
    raw_message := "Failed password for root from 10.0.0.5 port 22 ssh2" }

/-- A fresh event (id `new-1` not present in the table). -/
def cEvFresh : LogEvent :=
  { event_id := "new-1", timestamp := "2026-10-11T10:01:00Z",
    source_host := "db-02", os_type := "LINUX", event_type := "SUDO_ESCALATION",
    severity := 2, source_ip := "N/A", user := "admin",
    raw_message := "admin : TTY=pts/0 ; PWD=/ ; USER=root ; COMMAND=/bin/ls" }

/-- A redelivery of `cEvStored` (same id, same payload). -/
def cEvResend : LogEvent := cEvStored

/-- A critical event for the alert-engine witnesses. -/
def cEvCrit : LogEvent :=
  { event_id := "crit-9", timestamp := "2026-10-11T10:02:00Z",
    source_host := "web-01", os_type := "LINUX", event_type := "CRITICAL_ERROR",
    severity := 5, source_ip := "N/A", user := "system",
    raw_message := "Out of memory: Kill process 4242" }

/-- An inactive host row for the alert-engine witnesses. -/
def cHostRow : HostRow :=
  { hostname := "dns-server", os_type := "PIHOLE", last_seen := 0 }

/-- The event `parse_event` produces for `cLine` under `cPats`,
`digestOracle` and `ctxA` (the `generic_error` branch). -/
def cGenEvent : LogEvent :=
  { event_id := "web-01" ++ "-generic-err-" ++ cLine,
    timestamp := "2026-10-12T00:00:00+00:00",
    source_host := "web-01", os_type := "LINUX",
    event_type := "SYSTEM_ALERT", severity := 3, source_ip := "N/A",
    user := "system", raw_message := "[UTC] " ++ cLine }

/-- File system for the cursor witnesses: one 10-character auth log. -/
def cFs : FileSys := [("auth.log", "0123456789")]

/-- Persisted cursor state: 4 of those characters already processed. -/
def cSt : FileStates := [("auth.log", 4)]

/-! # Theorems -/

/-! ## Cursor lemmas (`read_new_lines`) -/

theorem statesGet_set (st : FileStates) (p q : String) (v : Nat) :
    statesGet (statesSet st p v) q = if q = p then v else statesGet st q := by
  induction st with
  | nil =>
      by_cases h : q = p
      · simp [statesSet, statesGet, h]
      · have h2 : ¬ p = q := fun hh => h hh.symm
        simp [statesSet, statesGet, h, h2]
  | cons hd tl ih =>
      obtain ⟨r, w⟩ := hd
      by_cases hrp : r = p
      · subst hrp
        by_cases hqr : q = r
        · subst hqr; simp [statesSet, statesGet]
        · have h2 : ¬ r = q := fun hh => hqr hh.symm
          simp [statesSet, statesGet, hqr, h2]
      · by_cases hrq : r = q
        · subst hrq
          have hqp : ¬ r = p := hrp
          simp [statesSet, statesGet, hrp, hqp]
        · simp [statesSet, statesGet, hrp, hrq, ih]

theorem read_new_lines_missing (fs : FileSys) (st : FileStates) (p : String)
    (h : fsGet fs p = none) : read_new_lines fs st p = ("", st) := by
  simp [read_new_lines, h]

theorem read_new_lines_offset (fs : FileSys) (st : FileStates) (p : String)
    (c : String) (h : fsGet fs p = some c) :
    statesGet (read_new_lines fs st p).2 p = sLen c := by
  simp [read_new_lines, h, statesGet_set]

theorem read_new_lines_keep (fs : FileSys) (st : FileStates) (p q : String)
    (c : String) (hp : fsGet fs p = some c) (hst : statesGet st p = sLen c) :
    statesGet (read_new_lines fs st q).2 p = sLen c := by
  cases hq : fsGet fs q with
  | none => simp [read_new_lines, hq, hst]
  | some c2 =>
      simp only [read_new_lines, hq, statesGet_set]
      by_cases hpq : p = q
      · subst hpq
        rw [hp] at hq
        cases hq
        simp
      · simp [hpq, hst]

theorem read_all_keep (fs : FileSys) (logs : List String) (st : FileStates)
    (p : String) (c : String) (hp : fsGet fs p = some c)
    (hst : statesGet st p = sLen c) :
    statesGet (read_all_sources fs logs st) p = sLen c := by
  induction logs generalizing st with
  | nil => simpa [read_all_sources] using hst
  | cons q rest ih =>
      simp only [read_all_sources, List.foldl_cons]
      exact ih _ (read_new_lines_keep fs st p q c hp hst)

theorem read_all_offset (fs : FileSys) (logs : List String) (st : FileStates)
    (p : String) (c : String) (hmem : p ∈ logs) (hp : fsGet fs p = some c) :
    statesGet (read_all_sources fs logs st) p = sLen c := by
  induction logs generalizing st with
  | nil => cases hmem
  | cons q rest ih =>
      simp only [read_all_sources, List.foldl_cons]
      rcases List.mem_cons.mp hmem with hqp | hrest
      · subst hqp
        exact read_all_keep fs rest _ p c hp (read_new_lines_offset fs st p c hp)
      · exact ih _ hrest

/--
C9.  For every log source and collection cycle the stored byte offset
never decreases, except on detected rotation (current size < stored
offset), where reading restarts from the start of the file (position
0) and the offset is re-established at the new, smaller file size; a
missing source leaves its offset (and the whole state) unchanged.
-/
theorem C9_cursor_monotone_except_rotation (fs : FileSys) (st : FileStates)
    (p : String) :
    (fsGet fs p = none → read_new_lines fs st p = ("", st)) ∧
    (∀ c, fsGet fs p = some c → statesGet st p ≤ sLen c →
      statesGet st p ≤ statesGet (read_new_lines fs st p).2 p) ∧
    (∀ c, fsGet fs p = some c → sLen c < statesGet st p →
      (read_new_lines fs st p).1 = c ∧
      statesGet (read_new_lines fs st p).2 p = sLen c) := by
  refine ⟨fun h => read_new_lines_missing fs st p h, ?_, ?_⟩
  · intro c hc hle
    rw [read_new_lines_offset fs st p c hc]
    exact hle
  · intro c hc hrot
    constructor
    · simp [read_new_lines, hc, Nat.not_lt.mpr (Nat.le_of_lt hrot), hrot, pyDrop]
    · exact read_new_lines_offset fs st p c hc

/-- Witness for C9 at concrete inputs: a missing file, a normal read
(offset 4 on a 10-character file advances to 10), and a rotation (a
3-character file against stored offset 4 is re-read whole). -/
theorem C9_witness :
    (read_new_lines [] cSt "auth.log" = ("", cSt)) ∧
    (statesGet cSt "auth.log" ≤
      statesGet (read_new_lines cFs cSt "auth.log").2 "auth.log") ∧
    ((read_new_lines [("auth.log", "abc")] cSt "auth.log").1 = "abc" ∧
      statesGet (read_new_lines [("auth.log", "abc")] cSt "auth.log").2 "auth.log"
        = sLen "abc") :=
  ⟨(C9_cursor_monotone_except_rotation [] cSt "auth.log").1 (by decide),
   (C9_cursor_monotone_except_rotation cFs cSt "auth.log").2.1 "0123456789"
     (by decide) (by decide),
   (C9_cursor_monotone_except_rotation [("auth.log", "abc")] cSt "auth.log").2.2
     "abc" (by decide) (by decide)⟩

/--
C1 counterexample.  The claim states that on delivery failure no
source cursor is committed — that the persisted per-source byte offset
is unchanged by the failed cycle.  In the code, `read_new_lines`
persists the advanced offset (`_save_state()`) immediately after
reading, before delivery is attempted, and `run`/`send_events` never
roll it back.  Concretely: with a 10-character log and stored offset
4, a cycle whose delivery fails leaves the persisted offset at 10, not
4.
-/
theorem C1_counterexample :
    statesGet (agent_cycle cFs ["auth.log"] cSt false) "auth.log" = 10 ∧
    statesGet cSt "auth.log" = 4 := by
  constructor <;> decide

/--
C1 (as amended).  The per-source byte offset is persisted inside
`read_new_lines`, immediately after each read and before delivery is
attempted: the delivery outcome has no effect whatsoever on the
persisted cursor state, and after a cycle every present source's
offset stands at the end of the content that was read — so a failed
cycle's byte range is NOT re-read by the next cycle (delivery of those
lines is at-most-once, not at-least-once).
-/
theorem C1_offset_committed_at_read_time (fs : FileSys) (logs : List String)
    (st : FileStates) :
    (agent_cycle fs logs st false = agent_cycle fs logs st true) ∧
    (∀ p c, p ∈ logs → fsGet fs p = some c →
      statesGet (agent_cycle fs logs st false) p = sLen c) := by
  refine ⟨rfl, ?_⟩
  intro p c hmem hc
  exact read_all_offset fs logs st p c hmem hc

/-- Witness for C1 (amended) at the concrete failing cycle: the
persisted offset for `auth.log` ends at 10 regardless of delivery. -/
theorem C1_witness :
    statesGet (agent_cycle cFs ["auth.log"] cSt false) "auth.log"
      = sLen "0123456789" :=
  (C1_offset_committed_at_read_time cFs ["auth.log"] cSt).2 "auth.log"
    "0123456789" (by decide) (by decide)

/-! ## Classifier lemmas (`parse_event`) -/

theorem optChain {α β : Type} (f : α → β) {b d : Option α} {a c : Option β}
    (h1 : a = b.map f) (h2 : c = d.map f) : (a <|> c) = (b <|> d).map f := by
  cases b with
  | some x => subst h1; rfl
  | none => subst h1; subst h2; rfl

/-- Factoring: `parse_event` factors through its time-independent core: the
wall-clock context enters only through `fillEvent` (the `timestamp`
and the timezone tag on `raw_message`). -/
theorem parse_event_factor (pats : Patterns) (md5hex : String → String)
    (host osty : String) (ctx : TimeCtx) (line : String) :
    parse_event pats md5hex host osty ctx line
      = (classify_core pats md5hex host line).map (fillEvent pats host osty ctx line) := by
  unfold parse_event classify_core
  by_cases h10 : sLen (pyStrip line) < 10
  · simp [h10]
  · simp only [h10, if_false]
    refine optChain _ ?_ (optChain _ ?_ (optChain _ ?_ (optChain _ ?_ (optChain _ ?_
      (optChain _ ?_ (optChain _ ?_ (optChain _ ?_ (optChain _ ?_
      (optChain _ ?_ ?_)))))))))
    · cases pats.failed_password line <;> rfl
    · cases pats.failed_password_invalid line <;> rfl
    · by_cases hs : containsSub (pyLower line) "sudo"
      · simp only [hs, if_true]
        cases pats.sudo_command line with
        | some g =>
          by_cases hg : (containsSub g.2 "/" || !((pyTake 5 g.2).data.contains '=')) = true
          · simp only [hg, if_true]; rfl
          · simp only [Bool.not_eq_true] at hg
            simp only [hg, Bool.false_eq_true, if_false]; rfl
        | none => rfl
      · simp only [Bool.not_eq_true] at hs
        simp only [hs, Bool.false_eq_true, if_false]; rfl
    · cases pats.web_error_forbidden line <;> rfl
    · cases pats.web_attack line <;> rfl
    · by_cases hm : (containsSub (pyLower line) "postfix"
          || containsSub (pyLower line) "dovecot") = true
      · simp only [hm, if_true]
        cases pats.postfix_auth_fail line with
        | some ip => rfl
        | none => cases pats.dovecot_auth_fail line <;> rfl
      · simp only [Bool.not_eq_true] at hm
        simp only [hm, Bool.false_eq_true, if_false]; rfl
    · by_cases hb : pats.oom_kill line = true <;>
        simp only [hb, Bool.not_eq_true, if_true, Bool.false_eq_true, if_false] <;> rfl
    · by_cases hb : pats.kernel_warning line = true <;>
        simp only [hb, Bool.not_eq_true, if_true, Bool.false_eq_true, if_false] <;> rfl
    · by_cases hb : pats.systemd_failure line = true <;>
        simp only [hb, Bool.not_eq_true, if_true, Bool.false_eq_true, if_false] <;> rfl
    · by_cases hb : pats.docker_error line = true <;>
        simp only [hb, Bool.not_eq_true, if_true, Bool.false_eq_true, if_false] <;> rfl
    · by_cases hb : pats.generic_error line = true <;>
        simp only [hb, Bool.not_eq_true, if_true, Bool.false_eq_true, if_false] <;> rfl

theorem orElse_eq_some {α : Type} {a b : Option α} {c : α}
    (h : (a <|> b) = some c) : a = some c ∨ b = some c := by
  cases a with
  | some x => exact Or.inl h
  | none => exact Or.inr h

/-- Every id produced by the classifier core has the shape
`host ++ tag ++ digest(stripped line)` for a per-category tag. -/
theorem classify_core_id_shape (pats : Patterns) (md5hex : String → String)
    (host line : String) (c : EventCore)
    (h : classify_core pats md5hex host line = some c) :
    ∃ tag, c.event_id = host ++ tag ++ md5hex (pyStrip line) := by
  unfold classify_core at h
  by_cases h10 : sLen (pyStrip line) < 10
  · simp [h10] at h
  · simp only [h10, if_false] at h
    rcases orElse_eq_some h with h1 | h
    · obtain ⟨g, -, hc⟩ := Option.map_eq_some'.mp h1
      exact ⟨"-failed-pwd-", by rw [← hc]⟩
    rcases orElse_eq_some h with h1 | h
    · obtain ⟨g, -, hc⟩ := Option.map_eq_some'.mp h1
      exact ⟨"-invalid-user-", by rw [← hc]⟩
    rcases orElse_eq_some h with h1 | h
    · split at h1
      · split at h1
        · split at h1
          · exact ⟨"-sudo-", by rw [← Option.some.inj h1]⟩
          · cases h1
        · cases h1
      · cases h1
    rcases orElse_eq_some h with h1 | h
    · obtain ⟨g, -, hc⟩ := Option.map_eq_some'.mp h1
      exact ⟨"-web-403-", by rw [← hc]⟩
    rcases orElse_eq_some h with h1 | h
    · obtain ⟨g, -, hc⟩ := Option.map_eq_some'.mp h1
      exact ⟨"-web-attack-", by rw [← hc]⟩
    rcases orElse_eq_some h with h1 | h
    · split at h1
      · obtain ⟨g, -, hc⟩ := Option.map_eq_some'.mp h1
        exact ⟨"-mail-fail-", by rw [← hc]⟩
      · cases h1
    rcases orElse_eq_some h with h1 | h
    · split at h1
      · exact ⟨"-oom-", by rw [← Option.some.inj h1]⟩
      · cases h1
    rcases orElse_eq_some h with h1 | h
    · split at h1
      · exact ⟨"-kernel-warn-", by rw [← Option.some.inj h1]⟩
      · cases h1
    rcases orElse_eq_some h with h1 | h
    · split at h1
      · exact ⟨"-systemd-fail-", by rw [← Option.some.inj h1]⟩
      · cases h1
    rcases orElse_eq_some h with h1 | h
    · split at h1
      · exact ⟨"-docker-err-", by rw [← Option.some.inj h1]⟩
      · cases h1
    · split at h
      · exact ⟨"-generic-err-", by rw [← Option.some.inj h]⟩
      · cases h

/--
C5 counterexample.  The claim states classification is a pure function
of line content only — classifying the same line at two different
times yields the same fully-populated event (all fields equal).  It is
not: for a line with no parseable syslog date, `parse_timestamp` falls
back to `datetime.now(timezone.utc)`, so the `timestamp` field differs
between two classifications five minutes apart.
-/
theorem C5_counterexample :
    parse_event cPats digestOracle "web-01" "LINUX" ctxA cLine ≠
    parse_event cPats digestOracle "web-01" "LINUX" ctxB cLine := by
  decide

/--
C5 (as amended).  Classification is pure in everything except time:
the match decision and every field other than `timestamp` are
unchanged when the same line is classified at two different times in
the same timezone (`raw_message` carries the timezone name, and
`timestamp` is derived from the clock).  In particular the event id,
type, severity, source ip and user are functions of the line, the host
and the configured detectors alone.
-/
theorem C5_classification_pure_except_timestamp (pats : Patterns)
    (md5hex : String → String) (host osty : String) (t1 t2 : TimeCtx)
    (line : String) (htz : t1.tzName = t2.tzName) :
    (parse_event pats md5hex host osty t1 line).map stripTime
      = (parse_event pats md5hex host osty t2 line).map stripTime := by
  rw [parse_event_factor, parse_event_factor, Option.map_map, Option.map_map]
  congr 1
  funext c
  simp [Function.comp, stripTime, fillEvent, htz]

/-- Witness for C5 (amended): the two classifications of `cLine` five
minutes apart agree after the timestamp is forgotten. -/
theorem C5_witness :
    (parse_event cPats digestOracle "web-01" "LINUX" ctxA cLine).map stripTime
      = (parse_event cPats digestOracle "web-01" "LINUX" ctxB cLine).map stripTime :=
  C5_classification_pure_except_timestamp cPats digestOracle "web-01" "LINUX"
    ctxA ctxB cLine rfl

/-! ## Batch-insert lemmas (`insert_events_batch`) -/

theorem foldl_insertStep_aborted (ids : List String) (evs : List LogEvent) :
    ∀ st : BatchState, st.aborted = true →
      (evs.foldl (insertStep ids) st).aborted = true ∧
      (evs.foldl (insertStep ids) st).inserted = st.inserted ∧
      (evs.foldl (insertStep ids) st).pending = st.pending := by
  induction evs with
  | nil => intro st h; exact ⟨h, rfl, rfl⟩
  | cons e t ih =>
      intro st h
      simp only [List.foldl_cons]
      have hstep : insertStep ids st e = { st with failed := st.failed + 1 } := by
        simp [insertStep, h]
      rw [hstep]
      exact ih _ h

theorem foldl_insertStep_count (ids : List String) (evs : List LogEvent) :
    ∀ st : BatchState, st.inserted = st.pending.length →
      (evs.foldl (insertStep ids) st).inserted
        = (evs.foldl (insertStep ids) st).pending.length := by
  induction evs with
  | nil => intro st h; exact h
  | cons e t ih =>
      intro st h
      simp only [List.foldl_cons]
      refine ih _ ?_
      unfold insertStep
      split
      · simpa using h
      · split
        · simpa using h
        · simpa using h

/-- A batch consisting only of already-stored ids inserts nothing and
leaves the transaction with an empty pending set. -/
theorem foldl_insertStep_all_dup (ids : List String) (evs : List LogEvent)
    (hdup : ∀ e ∈ evs, e.event_id ∈ ids) :
    (evs.foldl (insertStep ids)
      { pending := [], aborted := false, inserted := 0, failed := 0 }).inserted = 0 ∧
    (evs.foldl (insertStep ids)
      { pending := [], aborted := false, inserted := 0, failed := 0 }).pending = [] := by
  cases evs with
  | nil => exact ⟨rfl, rfl⟩
  | cons e t =>
      simp only [List.foldl_cons]
      have he : e.event_id ∈ ids := hdup e (List.mem_cons_self e t)
      have hstep : insertStep ids
          { pending := [], aborted := false, inserted := 0, failed := 0 } e
          = { pending := [], aborted := true, inserted := 0, failed := 1 } := by
        simp [insertStep, he]
      rw [hstep]
      have := foldl_insertStep_aborted ids t
        { pending := [], aborted := true, inserted := 0, failed := 1 } rfl
      exact ⟨this.2.1, this.2.2⟩

/--
C2.  The claim (and the spec) say a uniqueness conflict on an event id
is a per-row rejection, never a batch abort: every fresh event of the
batch is stored, each duplicate individually excluded.  The code's
per-row `except psycopg2.IntegrityError` was ported from the SQLite
backend (`database.py`), where statement errors do not poison the
transaction; under psycopg2/PostgreSQL the first IntegrityError aborts
the whole transaction, every later insert raises
InFailedSqlTransaction, and the final commit rolls everything back.
Concretely: with `dup-1` already stored, the batch `[new-1, dup-1]`
leaves the table unchanged — the fresh event `new-1` is NOT stored —
while the code still reports `(inserted, failed) = (1, 1)`.
-/
theorem C2_duplicate_aborts_batch :
    cEvFresh.event_id ∉ [cEvStored].map (fun r => r.event_id) ∧
    insert_events_batch [cEvStored] [cEvFresh, cEvResend]
      = ((1, 1), [cEvStored]) := by
  constructor
  · decide
  · rfl

/--
C3.  Event id stability and ingestion idempotence: (a) classifying the
same line on the same host at two different times yields the same
event id; (b) the id is `host ++ tag ++ digest(stripped line)` for a
per-category tag, a deterministic digest of host, category tag and
line content; (c) resubmitting an event whose id is already stored
leaves the logs table unchanged and the response reports
`events_processed = 0`.
-/
theorem C3_id_stable_and_ingest_idempotent (pats : Patterns)
    (md5hex : String → String) (host osty : String) (t1 t2 : TimeCtx)
    (line : String) (store : List LogEvent) (hb : HeartbeatTable) (now : Int)
    (e : LogEvent) :
    ((parse_event pats md5hex host osty t1 line).map (fun ev => ev.event_id)
      = (parse_event pats md5hex host osty t2 line).map (fun ev => ev.event_id)) ∧
    (∀ ev, parse_event pats md5hex host osty t1 line = some ev →
      ∃ tag, ev.event_id = host ++ tag ++ md5hex (pyStrip line)) ∧
    (e.event_id ∈ store.map (fun r => r.event_id) →
      (ingest_logs store hb now [e]).1 = store ∧
      (ingest_logs store hb now [e]).2.2.events_processed = 0) := by
  refine ⟨?_, ?_, ?_⟩
  · rw [parse_event_factor, parse_event_factor, Option.map_map, Option.map_map]
    rfl
  · intro ev hev
    rw [parse_event_factor] at hev
    obtain ⟨c, hc, hfill⟩ := Option.map_eq_some'.mp hev
    obtain ⟨tag, htag⟩ := classify_core_id_shape pats md5hex host line c hc
    exact ⟨tag, by rw [← hfill]; exact htag⟩
  · intro hdup
    constructor
    · simp [ingest_logs, insert_events_batch, insertStep, hdup]
    · simp [ingest_logs, insert_events_batch, insertStep, hdup]

/-- Witness for C3 at concrete inputs: ids of `cLine` agree across the
two clocks, the id has the digest shape, and resending `cEvResend`
(id `dup-1`, already stored) stores nothing and reports 0. -/
theorem C3_witness :
    ((parse_event cPats digestOracle "web-01" "LINUX" ctxA cLine).map
        (fun ev => ev.event_id)
      = (parse_event cPats digestOracle "web-01" "LINUX" ctxB cLine).map
        (fun ev => ev.event_id)) ∧
    (∃ tag, cGenEvent.event_id = "web-01" ++ tag ++ digestOracle (pyStrip cLine)) ∧
    ((ingest_logs [cEvStored] [] 0 [cEvResend]).1 = [cEvStored] ∧
     (ingest_logs [cEvStored] [] 0 [cEvResend]).2.2.events_processed = 0) := by
  have h := C3_id_stable_and_ingest_idempotent cPats digestOracle "web-01" "LINUX"
    ctxA ctxB cLine [cEvStored] [] 0 cEvResend
  exact ⟨h.1, h.2.1 cGenEvent (by decide), h.2.2 (by decide)⟩

/-! ## Heartbeat lemmas (`record_heartbeat`, `ingest_logs`) -/

theorem hbLastSeen_record (now : Int) (t : HeartbeatTable) (h2 o h : String) :
    hbLastSeen (record_heartbeat now t h2 o) h
      = if h = h2 then some now else hbLastSeen t h := by
  induction t with
  | nil =>
      by_cases hh : h = h2
      · simp [record_heartbeat, hbLastSeen, hh]
      · have hh2 : ¬ h2 = h := fun e => hh e.symm
        simp [record_heartbeat, hbLastSeen, hh, hh2]
  | cons r rest ih =>
      by_cases hr2 : r.hostname = h2
      · by_cases hh : h = h2
        · have hrh : r.hostname = h := by rw [hr2, hh]
          simp [record_heartbeat, hbLastSeen, hr2, hrh, hh]
        · have hrh : ¬ r.hostname = h := by
            rw [hr2]; exact fun e => hh e.symm
          have hh2 : ¬ h2 = h := fun e => hh e.symm
          simp [record_heartbeat, hbLastSeen, hr2, hrh, hh, hh2]
      · by_cases hrh : r.hostname = h
        · have hh : ¬ h = h2 := by
            intro e; exact hr2 (hrh.trans e)
          simp [record_heartbeat, hbLastSeen, hr2, hrh, hh]
        · simp [record_heartbeat, hbLastSeen, hr2, hrh, ih]

theorem hbFold_keep (now : Int) (pairs : List (String × String)) :
    ∀ (t : HeartbeatTable) (h : String), hbLastSeen t h = some now →
      hbLastSeen (pairs.foldl (fun t pr => record_heartbeat now t pr.1 pr.2) t) h
        = some now := by
  induction pairs with
  | nil => intro t h hh; exact hh
  | cons p ps ih =>
      intro t h hh
      simp only [List.foldl_cons]
      refine ih _ h ?_
      rw [hbLastSeen_record]
      by_cases hp : h = p.1 <;> simp [hp, hh]

theorem hbFold_mem (now : Int) (pairs : List (String × String)) :
    ∀ (t : HeartbeatTable) (h o : String), (h, o) ∈ pairs →
      hbLastSeen (pairs.foldl (fun t pr => record_heartbeat now t pr.1 pr.2) t) h
        = some now := by
  induction pairs with
  | nil => intro t h o hmem; cases hmem
  | cons p ps ih =>
      intro t h o hmem
      simp only [List.foldl_cons]
      rcases List.mem_cons.mp hmem with he | hm
      · refine hbFold_keep now ps _ h ?_
        rw [hbLastSeen_record]
        have : h = p.1 := by rw [← he]
        simp [this]
      · exact ih _ h o hm

/-- If the batch insert changed the logs table, the reported processed
count is positive (the transaction committed with nonempty pending). -/
theorem insert_batch_changed (store evs : List LogEvent)
    (hne : (insert_events_batch store evs).2 ≠ store) :
    0 < (insert_events_batch store evs).1.1 := by
  unfold insert_events_batch at hne ⊢
  by_cases ha : (evs.foldl (insertStep (store.map (fun r => r.event_id)))
      { pending := [], aborted := false, inserted := 0, failed := 0 }).aborted = true
  · exact absurd (by simp [ha]) hne
  · simp only [Bool.not_eq_true] at ha
    have hcount := foldl_insertStep_count (store.map (fun r => r.event_id)) evs
      { pending := [], aborted := false, inserted := 0, failed := 0 } rfl
    cases hp : (evs.foldl (insertStep (store.map (fun r => r.event_id)))
        { pending := [], aborted := false, inserted := 0, failed := 0 }).pending with
    | nil => exact absurd (by simp [ha, hp]) hne
    | cons x xs =>
        simp only [hcount, hp, List.length_cons]
        exact Nat.succ_pos _

/--
C10.  On an `/ingest` request in which at least one event is newly
stored, the server updates the heartbeat (`HostLiveness`) of every
`source_host` appearing anywhere in the batch — including hosts all of
whose events were duplicates; and when every event of the batch is a
duplicate the reported `events_processed` is 0 and no heartbeat row is
touched (in general, whenever `events_processed = 0` the heartbeat
table is untouched).
-/
theorem C10_ingest_updates_liveness (store : List LogEvent)
    (hb : HeartbeatTable) (now : Int) (events : List LogEvent) :
    ((ingest_logs store hb now events).1 ≠ store →
      ∀ e ∈ events,
        hbLastSeen (ingest_logs store hb now events).2.1 e.source_host = some now) ∧
    ((∀ e ∈ events, e.event_id ∈ store.map (fun r => r.event_id)) →
      (ingest_logs store hb now events).2.2.events_processed = 0 ∧
      (ingest_logs store hb now events).2.1 = hb) ∧
    ((ingest_logs store hb now events).2.2.events_processed = 0 →
      (ingest_logs store hb now events).2.1 = hb) := by
  refine ⟨?_, ?_, ?_⟩
  · intro hne e he
    have hpos : 0 < (insert_events_batch store events).1.1 :=
      insert_batch_changed store events hne
    have hpair : (e.source_host, e.os_type) ∈ uniqueHostPairs events :=
      List.mem_dedup.mpr (List.mem_map_of_mem _ he)
    show hbLastSeen (if 0 < (insert_events_batch store events).1.1 then _ else hb)
        e.source_host = some now
    rw [if_pos hpos]
    exact hbFold_mem now (uniqueHostPairs events) hb e.source_host e.os_type hpair
  · intro hdup
    have h0 := foldl_insertStep_all_dup (store.map (fun r => r.event_id)) events hdup
    constructor
    · show (insert_events_batch store events).1.1 = 0
      unfold insert_events_batch
      exact h0.1
    · show (if 0 < (insert_events_batch store events).1.1 then _ else hb) = hb
      have : (insert_events_batch store events).1.1 = 0 := h0.1
      rw [this]
      simp
  · intro h0
    show (if 0 < (insert_events_batch store events).1.1 then _ else hb) = hb
    have : (insert_events_batch store events).1.1 = 0 := h0
    rw [this]
    simp

/-- Witness for C10: a batch of two fresh events from distinct hosts
updates the heartbeat of each, and resending an already-stored event
reports 0 processed and touches no heartbeat row. -/
theorem C10_witness :
    ((ingest_logs [] [] 5 [cEvStored, cEvFresh]).1 ≠ [] →
      hbLastSeen (ingest_logs [] [] 5 [cEvStored, cEvFresh]).2.1 "web-01" = some 5) ∧
    ((ingest_logs [] [] 5 [cEvStored, cEvFresh]).1 ≠ []) ∧
    ((ingest_logs [cEvStored] [] 0 [cEvResend]).2.2.events_processed = 0 ∧
      (ingest_logs [cEvStored] [] 0 [cEvResend]).2.1 = []) := by
  refine ⟨?_, ?_, ?_⟩
  · intro hne
    exact (C10_ingest_updates_liveness [] [] 5 [cEvStored, cEvFresh]).1 hne
      cEvStored (by decide)
  · decide
  · exact (C10_ingest_updates_liveness [cEvStored] [] 0 [cEvResend]).2.1
      (by decide)

/--
C8.  For every host row of the liveness union (heartbeat hosts, plus
max-event-timestamp rows for hosts that never sent a heartbeat),
`get_host_status` classifies the row active iff
`now - last_seen ≤ threshold` minutes — i.e. strictly-less-than
threshold is active AND the boundary (`now - last_seen` exactly the
threshold) is still active — and inactive otherwise.
-/
theorem C8_host_active_boundary (hb : List HostRow)
    (logs : List (String × String × Int)) (now thr : Int) (r : HostRow)
    (hmem : r ∈ combinedRows hb logs) :
    (r ∈ (get_host_status hb logs now thr).1 ↔ now - r.last_seen ≤ thr) ∧
    (r ∈ (get_host_status hb logs now thr).2 ↔ thr < now - r.last_seen) ∧
    (r.last_seen = now - thr → r ∈ (get_host_status hb logs now thr).1) := by
  unfold get_host_status
  rw [List.partition_eq_filter_filter]
  refine ⟨?_, ?_, ?_⟩
  · simp only [List.mem_filter]
    constructor
    · rintro ⟨-, hp⟩
      have := of_decide_eq_true hp
      omega
    · intro hle
      exact ⟨hmem, decide_eq_true (by omega)⟩
  · simp only [List.mem_filter, Function.comp, Bool.not_eq_true']
    constructor
    · rintro ⟨-, hp⟩
      have := of_decide_eq_false hp
      omega
    · intro hlt
      exact ⟨hmem, decide_eq_false (by omega)⟩
  · intro hbd
    simp only [List.mem_filter]
    exact ⟨hmem, decide_eq_true (by omega)⟩

/-- Witness for C8: with `now = 115` and threshold 15, the heartbeat
host last seen at minute 100 (exactly 15 minutes ago) is active, and a
log-only host whose latest event is at minute 90 (25 minutes ago) is
inactive. -/
theorem C8_witness :
    (HostRow.mk "host1" "LINUX" 100 ∈
      (get_host_status [⟨"host1", "LINUX", 100⟩]
        [("host2", "LINUX", 90), ("host2", "LINUX", 80)] 115 15).1) ∧
    (HostRow.mk "host2" "LINUX" 90 ∈
      (get_host_status [⟨"host1", "LINUX", 100⟩]
        [("host2", "LINUX", 90), ("host2", "LINUX", 80)] 115 15).2) :=
  ⟨(C8_host_active_boundary [⟨"host1", "LINUX", 100⟩]
      [("host2", "LINUX", 90), ("host2", "LINUX", 80)] 115 15
      ⟨"host1", "LINUX", 100⟩ (by decide)).2.2 (by decide),
   (C8_host_active_boundary [⟨"host1", "LINUX", 100⟩]
      [("host2", "LINUX", 90), ("host2", "LINUX", 80)] 115 15
      ⟨"host2", "LINUX", 90⟩ (by decide)).2.1.mpr (by decide)⟩

/--
C7 counterexample.  The claim asserts the end minute of the quiet
window is excluded in all cases.  When `start = end` the code takes
the wrap branch (`start ≥ end`), whose test `m ≥ start or m < end`
holds for every minute, so the window `10:00-10:00` covers the whole
day and the end minute 600 is INSIDE it, not excluded.
-/
theorem C7_counterexample :
    parseQuietRange "10:00-10:00" = some (600, 600) ∧
    is_quiet_hour "10:00-10:00" 600 = true := by
  constructor <;> rfl

/--
C7 (as amended).  Quiet hours form a half-open minute-of-day interval
that may wrap past midnight: for a window parsing to minutes
`(start, end)`, the current minute `m` is within quiet hours iff
`start ≤ m < end` when `start < end`, and iff `m ≥ start` or `m < end`
when `start ≥ end`.  The start minute is included in all cases; the
end minute is excluded whenever `start ≠ end` — when `start = end` the
wrap test makes the window the whole day, so the end minute (= the
start minute) is included.
-/
theorem C7_quiet_window (cfg : String) (m s e : Nat)
    (hparse : parseQuietRange cfg = some (s, e))
    (hne : cfg ≠ "") (hdash : cfg.data.contains '-' = true) :
    (is_quiet_hour cfg m = true ↔
      (if s < e then s ≤ m ∧ m < e else s ≤ m ∨ m < e)) ∧
    (is_quiet_hour cfg s = true) ∧
    (s ≠ e → is_quiet_hour cfg e = false) := by
  have hguard : (cfg = "" || !(cfg.data.contains '-')) = false := by
    rw [hdash]
    simp [hne]
  refine ⟨?_, ?_, ?_⟩
  · unfold is_quiet_hour
    rw [hguard, hparse]
    by_cases hlt : s < e
    · simp [hlt, decide_eq_true_eq]
    · simp [hlt, decide_eq_true_eq]
  · unfold is_quiet_hour
    rw [hguard, hparse]
    by_cases hlt : s < e
    · simp [hlt, decide_eq_true_eq]
    · simp [hlt, decide_eq_true_eq]
  · intro hsne
    unfold is_quiet_hour
    rw [hguard, hparse]
    by_cases hlt : s < e
    · simp [hlt, decide_eq_true_eq]
    · simp only [hlt, if_false]
      have hes : e < s := by omega
      simp [decide_eq_true_eq]
      omega

/-- Witness for C7 (amended) on the wrapping window `22:00-06:00`
(minutes 1320 to 360): 23:00 (1380) is quiet, the start minute 1320 is
quiet, the end minute 360 is not. -/
theorem C7_witness :
    (is_quiet_hour "22:00-06:00" 1380 = true ↔
      (if 1320 < 360 then 1320 ≤ 1380 ∧ 1380 < 360 else 1320 ≤ 1380 ∨ 1380 < 360)) ∧
    (is_quiet_hour "22:00-06:00" 1320 = true) ∧
    (is_quiet_hour "22:00-06:00" 360 = false) := by
  have h := C7_quiet_window "22:00-06:00" 1380 1320 360 (by rfl) (by decide) (by rfl)
  exact ⟨h.1, h.2.1, h.2.2 (by decide)⟩

/-! ## Alert-engine loop lemmas -/

theorem mem_record_alert_sent {p : String × String} (db : AlertDB)
    (cid kind : String) :
    p ∈ record_alert_sent db cid kind ↔ p ∈ db ∨ p = (cid, kind) := by
  unfold record_alert_sent
  split
  case isTrue hmem =>
    constructor
    · exact Or.inl
    · rintro (hp | rfl)
      · exact hp
      · exact hmem
  case isFalse hmem =>
    simp [List.mem_append]

/-- Each iteration of the critical-events loop either leaves the
accumulator unchanged or — outside quiet hours, for a qualifying,
not-yet-recorded event whose dispatch succeeded — appends the pair
`(event_id, "critical")` to both the alert history and the dispatch
log. -/
theorem critStep_cases (thr : Nat) (quiet : Bool) (dOk : LogEvent → Bool)
    (acc : AlertDB × List (String × String)) (e : LogEvent) :
    critStep thr quiet dOk acc e = acc ∨
    (quiet = false ∧ dOk e = true ∧ thr ≤ e.severity ∧ e.event_id ≠ "" ∧
      (e.event_id, "critical") ∉ acc.1 ∧
      critStep thr quiet dOk acc e
        = (record_alert_sent acc.1 e.event_id "critical",
           acc.2 ++ [(e.event_id, "critical")])) := by
  unfold critStep
  by_cases h1 : thr ≤ e.severity
  · rw [if_pos h1]
    by_cases h2 : e.event_id ≠ "" ∧ check_alert_sent acc.1 e.event_id "critical" = false
    · rw [if_pos h2]
      by_cases hq : quiet = true
      · rw [if_pos hq]
        exact Or.inl rfl
      · have hq2 : quiet = false := by revert hq; cases quiet <;> simp
        rw [if_neg hq]
        by_cases hd : dOk e = true
        · rw [if_pos hd]
          refine Or.inr ⟨hq2, hd, h1, h2.1, ?_, rfl⟩
          have h3 := h2.2
          unfold check_alert_sent at h3
          exact of_decide_eq_false h3
        · rw [if_neg hd]
          exact Or.inl rfl
    · rw [if_neg h2]
      exact Or.inl rfl
  · rw [if_neg h1]
    exact Or.inl rfl

/-- Analogous case split for the inactive-hosts loop. -/
theorem hostStep_cases (quiet : Bool) (hOk : HostRow → Bool)
    (acc : AlertDB × List (String × String)) (x : HostRow) :
    hostStep quiet hOk acc x = acc ∨
    (quiet = false ∧ hOk x = true ∧
      ("host-down-" ++ x.hostname, "host_down") ∉ acc.1 ∧
      hostStep quiet hOk acc x
        = (record_alert_sent acc.1 ("host-down-" ++ x.hostname) "host_down",
           acc.2 ++ [("host-down-" ++ x.hostname, "host_down")])) := by
  unfold hostStep
  by_cases h2 : check_alert_sent acc.1 ("host-down-" ++ x.hostname) "host_down" = false
  · rw [if_pos h2]
    by_cases hq : quiet = true
    · rw [if_pos hq]
      exact Or.inl rfl
    · have hq2 : quiet = false := by revert hq; cases quiet <;> simp
      rw [if_neg hq]
      by_cases hd : hOk x = true
      · rw [if_pos hd]
        refine Or.inr ⟨hq2, hd, ?_, rfl⟩
        unfold check_alert_sent at h2
        exact of_decide_eq_false h2
      · rw [if_neg hd]
        exact Or.inl rfl
  · rw [if_neg h2]
    exact Or.inl rfl

/-- The common shape of both loop bodies: unchanged, or record+log one
pair of the loop's alert kind that was not yet in the history. -/
def StepChar {α : Type} (kind : String)
    (step : (AlertDB × List (String × String)) → α → (AlertDB × List (String × String))) : Prop :=
  ∀ acc x, step acc x = acc ∨
    ∃ cid, (cid, kind) ∉ acc.1 ∧
      step acc x = (record_alert_sent acc.1 cid kind, acc.2 ++ [(cid, kind)])

theorem critStep_char (thr : Nat) (quiet : Bool) (dOk : LogEvent → Bool) :
    StepChar "critical" (critStep thr quiet dOk) := by
  intro acc e
  rcases critStep_cases thr quiet dOk acc e with h | ⟨-, -, -, -, hni, he⟩
  · exact Or.inl h
  · exact Or.inr ⟨e.event_id, hni, he⟩

theorem hostStep_char (quiet : Bool) (hOk : HostRow → Bool) :
    StepChar "host_down" (hostStep quiet hOk) := by
  intro acc x
  rcases hostStep_cases quiet hOk acc x with h | ⟨-, -, hni, he⟩
  · exact Or.inl h
  · exact Or.inr ⟨"host-down-" ++ x.hostname, hni, he⟩

theorem loop_mono {α : Type} {kind : String}
    {step : (AlertDB × List (String × String)) → α → (AlertDB × List (String × String))}
    (hchar : StepChar kind step) (l : List α) :
    ∀ acc, (∀ p, p ∈ acc.1 → p ∈ (l.foldl step acc).1) ∧
      (∀ p, p ∈ acc.2 → p ∈ (l.foldl step acc).2) := by
  induction l with
  | nil => exact fun acc => ⟨fun p h => h, fun p h => h⟩
  | cons x t ih =>
      intro acc
      simp only [List.foldl_cons]
      rcases hchar acc x with he | ⟨cid, hni, he⟩
      · rw [he]; exact ih acc
      · rw [he]
        refine ⟨fun p hp => (ih _).1 p ?_, fun p hp => (ih _).2 p ?_⟩
        · exact (mem_record_alert_sent acc.1 cid kind).mpr (Or.inl hp)
        · exact List.mem_append_left _ hp

theorem loop_db_new {α : Type} {kind : String}
    {step : (AlertDB × List (String × String)) → α → (AlertDB × List (String × String))}
    (hchar : StepChar kind step) (l : List α) :
    ∀ acc p, p ∈ (l.foldl step acc).1 → p ∈ acc.1 ∨ p ∈ (l.foldl step acc).2 := by
  induction l with
  | nil => exact fun acc p h => Or.inl h
  | cons x t ih =>
      intro acc p hp
      simp only [List.foldl_cons] at hp ⊢
      rcases ih (step acc x) p hp with hstep | hsent
      · rcases hchar acc x with he | ⟨cid, hni, he⟩
        · rw [he] at hstep hp ⊢
          exact ih acc p hp
        · rw [he] at hstep ⊢
          rcases (mem_record_alert_sent acc.1 cid kind).mp hstep with h1 | rfl
          · exact Or.inl h1
          · refine Or.inr ((loop_mono hchar t _).2 _ ?_)
            exact List.mem_append_right _ (List.mem_singleton.mpr rfl)
      · exact Or.inr hsent

theorem loop_no_redispatch {α : Type} {kind : String}
    {step : (AlertDB × List (String × String)) → α → (AlertDB × List (String × String))}
    (hchar : StepChar kind step) (l : List α) :
    ∀ acc p, p ∈ acc.1 → p ∉ acc.2 → p ∉ (l.foldl step acc).2 := by
  induction l with
  | nil => exact fun acc p _ h2 => h2
  | cons x t ih =>
      intro acc p h1 h2
      simp only [List.foldl_cons]
      rcases hchar acc x with he | ⟨cid, hni, he⟩
      · rw [he]; exact ih acc p h1 h2
      · rw [he]
        refine ih _ p ?_ ?_
        · exact (mem_record_alert_sent acc.1 cid kind).mpr (Or.inl h1)
        · intro hmem
          rcases List.mem_append.mp hmem with h | h
          · exact h2 h
          · rw [List.mem_singleton.mp h] at h1
            exact hni h1
/-- Pairs appearing in a loop's dispatch log carry the loop's kind. -/
theorem loop_sent_kind {α : Type} {kind : String}
    {step : (AlertDB × List (String × String)) → α → (AlertDB × List (String × String))}
    (hchar : StepChar kind step) (l : List α) :
    ∀ acc p, p ∈ (l.foldl step acc).2 → p ∈ acc.2 ∨ p.2 = kind := by
  induction l with
  | nil => exact fun acc p h => Or.inl h
  | cons x t ih =>
      intro acc p hp
      simp only [List.foldl_cons] at hp
      rcases ih _ p hp with hstep | hk
      · rcases hchar acc x with he | ⟨cid, hni, he⟩
        · rw [he] at hstep
          exact Or.inl hstep
        · rw [he] at hstep
          rcases List.mem_append.mp hstep with h | h
          · exact Or.inl h
          · rw [List.mem_singleton.mp h]
            exact Or.inr rfl
      · exact Or.inr hk

/-- Pairs newly appearing in a loop's alert history carry its kind. -/
theorem loop_db_kind {α : Type} {kind : String}
    {step : (AlertDB × List (String × String)) → α → (AlertDB × List (String × String))}
    (hchar : StepChar kind step) (l : List α) :
    ∀ acc p, p ∈ (l.foldl step acc).1 → p ∈ acc.1 ∨ p ∈ acc.2 ∨ p.2 = kind := by
  intro acc p hp
  rcases loop_db_new hchar l acc p hp with h | h
  · exact Or.inl h
  · rcases loop_sent_kind hchar l acc p h with h2 | h2
    · exact Or.inr (Or.inl h2)
    · exact Or.inr (Or.inr h2)

/-- A loop whose steps never add the pair `P` to the history cannot
produce `P` in its final history. -/
theorem loop_not_added {α : Type}
    {step : (AlertDB × List (String × String)) → α → (AlertDB × List (String × String))}
    (P : String × String) (l : List α)
    (hnot : ∀ acc x, x ∈ l → P ∈ (step acc x).1 → P ∈ acc.1) :
    ∀ acc, P ∈ (l.foldl step acc).1 → P ∈ acc.1 := by
  induction l with
  | nil => exact fun acc h => h
  | cons x t ih =>
      intro acc hp
      simp only [List.foldl_cons] at hp
      have hstep := ih (fun acc2 y hy => hnot acc2 y (List.mem_cons_of_mem x hy)) _ hp
      exact hnot acc x (List.mem_cons_self x t) hstep

/-- A loop whose step is the identity leaves the accumulator alone. -/
theorem loop_id {α : Type}
    {step : (AlertDB × List (String × String)) → α → (AlertDB × List (String × String))}
    (l : List α) (hid : ∀ acc x, step acc x = acc) :
    ∀ acc, l.foldl step acc = acc := by
  induction l with
  | nil => exact fun acc => rfl
  | cons x t ih =>
      intro acc
      simp only [List.foldl_cons, hid]
      exact ih acc

/-- If some list element forces the pair `P` into the history (and
into the log when not already recorded), the loop delivers it. -/
theorem loop_hit {α : Type} {kind : String}
    {step : (AlertDB × List (String × String)) → α → (AlertDB × List (String × String))}
    (hchar : StepChar kind step) (P : String × String) (x0 : α) (l : List α)
    (hhit : ∀ acc, P ∈ (step acc x0).1 ∧ (P ∈ acc.1 ∨ P ∈ (step acc x0).2))
    (hmem : x0 ∈ l) :
    ∀ acc, P ∈ (l.foldl step acc).1 ∧ (P ∈ acc.1 ∨ P ∈ (l.foldl step acc).2) := by
  induction l with
  | nil => cases hmem
  | cons x t ih =>
      intro acc
      simp only [List.foldl_cons]
      rcases List.mem_cons.mp hmem with rfl | hx0t
      · obtain ⟨hdb, hdisj⟩ := hhit acc
        refine ⟨(loop_mono hchar t _).1 _ hdb, ?_⟩
        rcases hdisj with h | h
        · exact Or.inl h
        · exact Or.inr ((loop_mono hchar t _).2 _ h)
      · obtain ⟨hdb, hdisj⟩ := ih hx0t (step acc x)
        refine ⟨hdb, ?_⟩
        rcases hdisj with h | h
        · rcases hchar acc x with he | ⟨cid, hni, he⟩
          · rw [he] at h
            exact Or.inl h
          · rw [he] at h
            rcases (mem_record_alert_sent acc.1 cid kind).mp h with h1 | rfl
            · exact Or.inl h1
            · refine Or.inr ((loop_mono hchar t _).2 _ ?_)
              rw [he]
              exact List.mem_append_right _ (List.mem_singleton.mpr rfl)
        · exact Or.inr h

/--
C4.  At-most-once alert dispatch: over an Alert Engine cycle on the
persisted `alert_history` table `db` (which survives process restarts,
so consecutive cycles and post-restart cycles all take this form):
once a record `(condition_id, kind)` exists, the cycle dispatches
nothing for that pair; records persist; a record appearing after the
cycle was either already present or belongs to a dispatch that
SUCCEEDED in this cycle; and if every dispatch attempt for a condition
fails, no record for it is written (so it is retried next poll).
-/
theorem C4_alert_record_at_most_once (enabled : Bool) (thr : Nat) (quiet : Bool)
    (dOk : LogEvent → Bool) (hOk : HostRow → Bool) (events : List LogEvent)
    (inactive : List HostRow) (db : AlertDB) (cid kind : String) :
    ((cid, kind) ∈ db →
      (cid, kind) ∉ (alert_cycle enabled thr quiet dOk hOk events inactive db).2) ∧
    ((cid, kind) ∈ db →
      (cid, kind) ∈ (alert_cycle enabled thr quiet dOk hOk events inactive db).1) ∧
    ((cid, kind) ∈ (alert_cycle enabled thr quiet dOk hOk events inactive db).1 →
      (cid, kind) ∈ db ∨
      (cid, kind) ∈ (alert_cycle enabled thr quiet dOk hOk events inactive db).2) ∧
    ((∀ e ∈ events, e.event_id = cid → dOk e = false) →
      ((cid, "critical") ∈ (alert_cycle enabled thr quiet dOk hOk events inactive db).1
        ↔ (cid, "critical") ∈ db)) ∧
    ((∀ x ∈ inactive, "host-down-" ++ x.hostname = cid → hOk x = false) →
      ((cid, "host_down") ∈ (alert_cycle enabled thr quiet dOk hOk events inactive db).1
        ↔ (cid, "host_down") ∈ db)) := by
  by_cases hen : enabled = true
  case neg =>
    simp only [alert_cycle, check_critical_events, check_inactive_hosts,
      if_neg hen, List.append_nil]
    exact ⟨fun _ => List.not_mem_nil _, fun h => h, fun h => Or.inl h,
      fun _ => trivial, fun _ => trivial⟩
  case pos =>
    subst hen
    have critchar := critStep_char thr quiet dOk
    have hostchar := hostStep_char quiet hOk
    simp only [alert_cycle, check_critical_events, check_inactive_hosts,
      eq_self_iff_true, if_true]
    refine ⟨?_, ?_, ?_, ?_, ?_⟩
    · intro hdb
      have h1 := loop_no_redispatch critchar events (db, []) (cid, kind) hdb
        (List.not_mem_nil _)
      have h2 := (loop_mono critchar events (db, [])).1 (cid, kind) hdb
      have h3 := loop_no_redispatch hostchar inactive
        ((events.foldl (critStep thr quiet dOk) (db, [])).1, []) (cid, kind) h2
        (List.not_mem_nil _)
      intro hmem
      rcases List.mem_append.mp hmem with h | h
      · exact h1 h
      · exact h3 h
    · intro hdb
      exact (loop_mono hostchar inactive _).1 _
        ((loop_mono critchar events (db, [])).1 _ hdb)
    · intro hp
      rcases loop_db_new hostchar inactive _ _ hp with hc1 | hh2
      · rcases loop_db_new critchar events (db, []) _ hc1 with hdb | hc2
        · exact Or.inl hdb
        · exact Or.inr (List.mem_append_left _ hc2)
      · exact Or.inr (List.mem_append_right _ hh2)
    · intro hfail
      constructor
      · intro hp
        have hnotH : ∀ acc x, x ∈ inactive →
            (cid, "critical") ∈ (hostStep quiet hOk acc x).1 →
            (cid, "critical") ∈ acc.1 := by
          intro acc x hx hmem
          rcases hostStep_cases quiet hOk acc x with he | ⟨-, -, -, he⟩
          · rwa [he] at hmem
          · rw [he] at hmem
            rcases (mem_record_alert_sent acc.1 _ _).mp hmem with h1 | h1
            · exact h1
            · injection h1 with h2 h3
              exact absurd h3 (by decide)
        have hc1 := loop_not_added (cid, "critical") inactive hnotH _ hp
        have hnotC : ∀ acc e, e ∈ events →
            (cid, "critical") ∈ (critStep thr quiet dOk acc e).1 →
            (cid, "critical") ∈ acc.1 := by
          intro acc e he hmem
          rcases critStep_cases thr quiet dOk acc e with hcs | ⟨-, hd, -, -, -, hcs⟩
          · rwa [hcs] at hmem
          · rw [hcs] at hmem
            rcases (mem_record_alert_sent acc.1 _ _).mp hmem with h1 | h1
            · exact h1
            · injection h1 with h2 h3
              rw [hfail e he h2.symm] at hd
              exact Bool.noConfusion hd
        exact loop_not_added (cid, "critical") events hnotC (db, []) hc1
      · intro hdb
        exact (loop_mono hostchar inactive _).1 _
          ((loop_mono critchar events (db, [])).1 _ hdb)
    · intro hfail
      constructor
      · intro hp
        have hnotH : ∀ acc x, x ∈ inactive →
            (cid, "host_down") ∈ (hostStep quiet hOk acc x).1 →
            (cid, "host_down") ∈ acc.1 := by
          intro acc x hx hmem
          rcases hostStep_cases quiet hOk acc x with he | ⟨-, hd, -, he⟩
          · rwa [he] at hmem
          · rw [he] at hmem
            rcases (mem_record_alert_sent acc.1 _ _).mp hmem with h1 | h1
            · exact h1
            · injection h1 with h2 h3
              rw [hfail x hx h2.symm] at hd
              exact Bool.noConfusion hd
        have hc1 := loop_not_added (cid, "host_down") inactive hnotH _ hp
        have hnotC : ∀ acc e, e ∈ events →
            (cid, "host_down") ∈ (critStep thr quiet dOk acc e).1 →
            (cid, "host_down") ∈ acc.1 := by
          intro acc e he hmem
          rcases critStep_cases thr quiet dOk acc e with hcs | ⟨-, -, -, -, -, hcs⟩
          · rwa [hcs] at hmem
          · rw [hcs] at hmem
            rcases (mem_record_alert_sent acc.1 _ _).mp hmem with h1 | h1
            · exact h1
            · injection h1 with h2 h3
              exact absurd h3 (by decide)
        exact loop_not_added (cid, "host_down") events hnotC (db, []) hc1
      · intro hdb
        exact (loop_mono hostchar inactive _).1 _
          ((loop_mono critchar events (db, [])).1 _ hdb)

/-- Witness for C4: with a record `("crit-9", "critical")` already
present, failing dispatchers, one critical event and one inactive
host, a full cycle dispatches nothing for the recorded pair, keeps the
record, and writes no record for the never-successful conditions. -/
theorem C4_witness :
    (("crit-9", "critical") ∉
      (alert_cycle true 4 false (fun _ => false) (fun _ => false)
        [cEvCrit] [cHostRow] [("crit-9", "critical")]).2) ∧
    (("crit-9", "critical") ∈
      (alert_cycle true 4 false (fun _ => false) (fun _ => false)
        [cEvCrit] [cHostRow] [("crit-9", "critical")]).1) ∧
    ((("crit-9", "critical") ∈
        (alert_cycle true 4 false (fun _ => false) (fun _ => false)
          [cEvCrit] [cHostRow] [("crit-9", "critical")]).1 →
      ("crit-9", "critical") ∈ ([("crit-9", "critical")] : AlertDB) ∨
      ("crit-9", "critical") ∈
        (alert_cycle true 4 false (fun _ => false) (fun _ => false)
          [cEvCrit] [cHostRow] [("crit-9", "critical")]).2)) ∧
    (("crit-9", "critical") ∈
        (alert_cycle true 4 false (fun _ => false) (fun _ => false)
          [cEvCrit] [cHostRow] [("crit-9", "critical")]).1
      ↔ ("crit-9", "critical") ∈ ([("crit-9", "critical")] : AlertDB)) ∧
    (("host-down-dns-server", "host_down") ∈
        (alert_cycle true 4 false (fun _ => false) (fun _ => false)
          [cEvCrit] [cHostRow] [("crit-9", "critical")]).1
      ↔ ("host-down-dns-server", "host_down") ∈
        ([("crit-9", "critical")] : AlertDB)) := by
  have h1 := C4_alert_record_at_most_once true 4 false (fun _ => false)
    (fun _ => false) [cEvCrit] [cHostRow] [("crit-9", "critical")]
    "crit-9" "critical"
  have h2 := C4_alert_record_at_most_once true 4 false (fun _ => false)
    (fun _ => false) [cEvCrit] [cHostRow] [("crit-9", "critical")]
    "host-down-dns-server" "host_down"
  exact ⟨h1.1 (by decide), h1.2.1 (by decide), h1.2.2.1,
    h1.2.2.2.1 (by intro e he hid; rfl), h2.2.2.2.2 (by intro x hx hid; rfl)⟩

/--
C6.  Quiet-hour suppression defers, never consumes, the at-most-once
dispatch: a cycle inside quiet hours leaves the `alert_history` table
exactly as it was and dispatches nothing; a later cycle outside the
quiet window, on a still-qualifying condition (a severity-over-
threshold event, or an inactive host) with no existing record,
dispatches it and records it.
-/
theorem C6_quiet_hours_defer (thr : Nat) (dOk : LogEvent → Bool)
    (hOk : HostRow → Bool) (events1 events2 : List LogEvent)
    (inactive1 inactive2 : List HostRow) (db : AlertDB) (e : LogEvent)
    (x : HostRow) :
    (alert_cycle true thr true dOk hOk events1 inactive1 db = (db, [])) ∧
    (e ∈ events2 → thr ≤ e.severity → e.event_id ≠ "" → dOk e = true →
      (e.event_id, "critical") ∉ db →
      (e.event_id, "critical")
        ∈ (alert_cycle true thr false dOk hOk events2 inactive2 db).1 ∧
      (e.event_id, "critical")
        ∈ (alert_cycle true thr false dOk hOk events2 inactive2 db).2) ∧
    (x ∈ inactive2 → hOk x = true →
      ("host-down-" ++ x.hostname, "host_down") ∉ db →
      ("host-down-" ++ x.hostname, "host_down")
        ∈ (alert_cycle true thr false dOk hOk events2 inactive2 db).1 ∧
      ("host-down-" ++ x.hostname, "host_down")
        ∈ (alert_cycle true thr false dOk hOk events2 inactive2 db).2) := by
  have critchar := critStep_char thr false dOk
  have hostchar := hostStep_char false hOk
  refine ⟨?_, ?_, ?_⟩
  · have hidC : ∀ (acc : AlertDB × List (String × String)) ev,
        critStep thr true dOk acc ev = acc := by
      intro acc ev
      rcases critStep_cases thr true dOk acc ev with h | ⟨hq, -⟩
      · exact h
      · exact Bool.noConfusion hq
    have hidH : ∀ (acc : AlertDB × List (String × String)) y,
        hostStep true hOk acc y = acc := by
      intro acc y
      rcases hostStep_cases true hOk acc y with h | ⟨hq, -⟩
      · exact h
      · exact Bool.noConfusion hq
    simp only [alert_cycle, check_critical_events, check_inactive_hosts,
      eq_self_iff_true, if_true]
    rw [loop_id events1 hidC (db, []), loop_id inactive1 hidH (db, [])]
    rfl
  · intro hmem hsev hid hok hnodb
    have hhit : ∀ acc : AlertDB × List (String × String),
        (e.event_id, "critical") ∈ (critStep thr false dOk acc e).1 ∧
        ((e.event_id, "critical") ∈ acc.1 ∨
          (e.event_id, "critical") ∈ (critStep thr false dOk acc e).2) := by
      intro acc
      by_cases hin : (e.event_id, "critical") ∈ acc.1
      · refine ⟨?_, Or.inl hin⟩
        rcases critStep_cases thr false dOk acc e with hcs | ⟨-, -, -, -, -, hcs⟩
        · rwa [hcs]
        · rw [hcs]
          exact (mem_record_alert_sent acc.1 _ _).mpr (Or.inl hin)
      · have hstep : critStep thr false dOk acc e
            = (record_alert_sent acc.1 e.event_id "critical",
               acc.2 ++ [(e.event_id, "critical")]) := by
          unfold critStep
          rw [if_pos hsev,
            if_pos (And.intro hid (by unfold check_alert_sent; exact decide_eq_false hin)),
            if_neg (by decide), if_pos hok]
        rw [hstep]
        exact ⟨(mem_record_alert_sent acc.1 _ _).mpr (Or.inr rfl),
          Or.inr (List.mem_append_right _ (List.mem_singleton.mpr rfl))⟩
    simp only [alert_cycle, check_critical_events, check_inactive_hosts,
      eq_self_iff_true, if_true]
    obtain ⟨hc1, hdisj⟩ := loop_hit critchar (e.event_id, "critical") e events2
      hhit hmem (db, [])
    have hsent : (e.event_id, "critical")
        ∈ (events2.foldl (critStep thr false dOk) (db, [])).2 := by
      rcases hdisj with h | h
      · exact absurd h hnodb
      · exact h
    refine ⟨(loop_mono hostchar inactive2 _).1 _ hc1,
      List.mem_append_left _ hsent⟩
  · intro hmem hok hnodb
    have hhit : ∀ acc : AlertDB × List (String × String),
        ("host-down-" ++ x.hostname, "host_down") ∈ (hostStep false hOk acc x).1 ∧
        (("host-down-" ++ x.hostname, "host_down") ∈ acc.1 ∨
          ("host-down-" ++ x.hostname, "host_down") ∈ (hostStep false hOk acc x).2) := by
      intro acc
      by_cases hin : ("host-down-" ++ x.hostname, "host_down") ∈ acc.1
      · refine ⟨?_, Or.inl hin⟩
        rcases hostStep_cases false hOk acc x with hcs | ⟨-, -, -, hcs⟩
        · rwa [hcs]
        · rw [hcs]
          exact (mem_record_alert_sent acc.1 _ _).mpr (Or.inl hin)
      · have hstep : hostStep false hOk acc x
            = (record_alert_sent acc.1 ("host-down-" ++ x.hostname) "host_down",
               acc.2 ++ [("host-down-" ++ x.hostname, "host_down")]) := by
          unfold hostStep
          rw [if_pos (by unfold check_alert_sent; exact decide_eq_false hin),
            if_neg (by decide), if_pos hok]
        rw [hstep]
        exact ⟨(mem_record_alert_sent acc.1 _ _).mpr (Or.inr rfl),
          Or.inr (List.mem_append_right _ (List.mem_singleton.mpr rfl))⟩
    simp only [alert_cycle, check_critical_events, check_inactive_hosts,
      eq_self_iff_true, if_true]
    have hnC : ("host-down-" ++ x.hostname, "host_down")
        ∉ (events2.foldl (critStep thr false dOk) (db, [])).1 := by
      intro hc
      rcases loop_db_kind critchar events2 (db, []) _ hc with h | h | h
      · exact hnodb h
      · exact List.not_mem_nil _ h
      · exact absurd h (show ¬ ("host_down" : String) = "critical" by decide)
    obtain ⟨hh1, hdisj⟩ := loop_hit hostchar
      ("host-down-" ++ x.hostname, "host_down") x inactive2 hhit hmem
      ((events2.foldl (critStep thr false dOk) (db, [])).1, [])
    have hsent : ("host-down-" ++ x.hostname, "host_down")
        ∈ (inactive2.foldl (hostStep false hOk)
            ((events2.foldl (critStep thr false dOk) (db, [])).1, [])).2 := by
      rcases hdisj with h | h
      · exact absurd h hnC
      · exact h
    exact ⟨hh1, List.mem_append_right _ hsent⟩

/-- Witness for C6: a quiet cycle on a critical event and an inactive
host changes nothing; the following non-quiet cycle dispatches and
records both conditions. -/
theorem C6_witness :
    (alert_cycle true 4 true (fun _ => true) (fun _ => true)
      [cEvCrit] [cHostRow] [] = ([], [])) ∧
    (("crit-9", "critical") ∈ (alert_cycle true 4 false (fun _ => true)
      (fun _ => true) [cEvCrit] [cHostRow] []).1 ∧
     ("crit-9", "critical") ∈ (alert_cycle true 4 false (fun _ => true)
      (fun _ => true) [cEvCrit] [cHostRow] []).2) ∧
    (("host-down-dns-server", "host_down") ∈ (alert_cycle true 4 false
      (fun _ => true) (fun _ => true) [cEvCrit] [cHostRow] []).1 ∧
     ("host-down-dns-server", "host_down") ∈ (alert_cycle true 4 false
      (fun _ => true) (fun _ => true) [cEvCrit] [cHostRow] []).2) := by
  have h := C6_quiet_hours_defer 4 (fun _ => true) (fun _ => true)
    [cEvCrit] [cEvCrit] [cHostRow] [cHostRow] [] cEvCrit cHostRow
  exact ⟨h.1, h.2.1 (by decide) (by decide) (by decide) rfl (by decide),
    h.2.2 (by decide) rfl (by decide)⟩

end Heimdall
